import Mathlib

/-!
Verification of the PhotoAnalyzer action-queue controller
(src/frontend — `PhotoAnalyzer` React component).

The controller state (React `useState` hooks) is embedded as a structure,
and each handler (`processNextAction`, `startConversation`, `sendCommand`,
`sendDescription`, `clearCache`) as a pure state transformer.  A backend
call is modelled by an oracle argument of type
`Except String ConversationResponse`: `.ok r` is a resolved response
(whose `status` field may or may not be `"success"`), `.error m` is a
thrown fault.  Handlers that may call the backend also return an
`Option ApiCall` recording which endpoint, if any, was actually invoked.

React state-update semantics are respected: within one handler run, every
read of a state variable sees the value captured at the start of the run
(the closure), while functional updaters `prev => ...` receive the current
value — each state variable is set at most once per run, so `prev` equals
the start-of-run value as well.
-/

namespace PhotoAnalyzer

/-- Embeds the `ProcessedImage` interface of the source. -/
structure ProcessedImage where
  url : String
  filename : String
  description : String
deriving DecidableEq

/-- Embeds the `ConversationResponse` interface of the source. -/
structure ConversationResponse where
  status : String
  message : String
  processed_images : List ProcessedImage
  llm_analysis : String
  suggested_actions : List String
deriving DecidableEq

/-- The React component state: one field per `useState` hook. -/
structure AnalyzerState where
  conversation : List ConversationResponse
  loading : Bool
  error : Option String
  description : String
  actionQueue : List String
  processingActions : Bool
  executedActions : Finset String
  descriptionAttempts : Nat
deriving DecidableEq

/-- Embeds `const MAX_DESCRIPTION_ATTEMPTS = 2`. -/
def MAX_DESCRIPTION_ATTEMPTS : Nat := 2

/-- Which backend endpoint a handler run actually invoked. -/
inductive ApiCall where
  | descriptionCall (text : String)
  | commandCall (cmd : String)
deriving DecidableEq

/-- The initial component state (all hooks at their initial values). -/
def initialState : AnalyzerState where
  conversation := []
  loading := false
  error := none
  description := ""
  actionQueue := []
  processingActions := false
  executedActions := ∅
  descriptionAttempts := 0

/-- The generic-command part of `processNextAction` (the code after the
`SUBMIT_DESCRIPTION` block, reached directly for ordinary tokens and by
fall-through when the `SUBMIT_DESCRIPTION` block does not return):
skip-if-already-executed, else dispatch `nextAction` via
`photoAnalyzerApi.sendCommand`.  The filter over `suggested_actions`
reads the closure variable `executedActions`, i.e. the set as of the
start of the run — NOT including the `setExecutedActions` update made
two lines above it. -/
def genericHandling (s : AnalyzerState) (nextAction : String)
    (rest : List String) (api : Except String ConversationResponse) :
    AnalyzerState × Option ApiCall :=
  if nextAction ≠ "ANALYZE_ALL" ∧ nextAction ∈ s.executedActions then
    let remainingActions := rest
    let newQueue :=
      if ∀ a ∈ remainingActions, a ≠ "ANALYZE_ALL" ∧ a ∈ s.executedActions then
        ["ANALYZE_ALL"]
      else remainingActions
    ({ s with actionQueue := newQueue, processingActions := false }, none)
  else
    match api with
    | .ok response =>
      if response.status = "success" then
        let newExecuted :=
          if nextAction ≠ "ANALYZE_ALL" then insert nextAction s.executedActions
          else s.executedActions
        let newQueue :=
          if response.suggested_actions.length > 0 then
            let newActions := response.suggested_actions.filter
              (fun a => decide (a = "ANALYZE_ALL" ∨ a ∉ s.executedActions))
            if newActions.length = 0 then ["ANALYZE_ALL"]
            else rest ++ newActions
          else
            if rest.length = 0 then ["ANALYZE_ALL"] else rest
        ({ s with conversation := s.conversation ++ [response],
                  executedActions := newExecuted,
                  actionQueue := newQueue,
                  processingActions := false },
         some (.commandCall nextAction))
      else
        ({ s with error := some response.message,
                  actionQueue := rest,
                  processingActions := false },
         some (.commandCall nextAction))
    | .error msg =>
      ({ s with error := some ("Error executing command: " ++ msg),
                actionQueue := rest,
                processingActions := false },
       some (.commandCall nextAction))

/-- The `SUBMIT_DESCRIPTION` success/failure block of `processNextAction`,
entered only when the last conversation turn exists and its
`llm_analysis` is truthy (non-empty).  Note that the `< MAX - 1` test
reads the closure value `descriptionAttempts` (pre-increment). -/
def submitDescriptionBlock (s : AnalyzerState) (analysisText : String)
    (api : Except String ConversationResponse) :
    AnalyzerState × Option ApiCall :=
  match api with
  | .ok response =>
    if response.status = "success" then
      ({ s with conversation := s.conversation ++ [response],
                descriptionAttempts := s.descriptionAttempts + 1,
                actionQueue :=
                  if s.descriptionAttempts < MAX_DESCRIPTION_ATTEMPTS - 1 then
                    ["ANALYZE_ALL"]
                  else [],
                processingActions := false },
       some (.descriptionCall analysisText))
    else
      ({ s with error := some response.message,
                actionQueue := ["ANALYZE_ALL"],
                processingActions := false },
       some (.descriptionCall analysisText))
  | .error msg =>
    ({ s with error := some ("Error sending description: " ++ msg),
              actionQueue := ["ANALYZE_ALL"],
              processingActions := false },
     some (.descriptionCall analysisText))

/-- Embeds `processNextAction` (one tick of the 2000 ms scheduler).
Runs only when the queue is non-empty and no run is in flight.  A
`SUBMIT_DESCRIPTION` head with a present, non-empty last analysis takes
the submit path and returns; otherwise control falls through to the
generic handling (the source's inner `if` has no `else` and its `return`
sits inside it). -/
def processNextAction (s : AnalyzerState)
    (api : Except String ConversationResponse) :
    AnalyzerState × Option ApiCall :=
  match s.actionQueue with
  | [] => (s, none)
  | nextAction :: rest =>
    if s.processingActions then (s, none)
    else if nextAction = "SUBMIT_DESCRIPTION" then
      match s.conversation.getLast? with
      | some lastResponse =>
        if lastResponse.llm_analysis ≠ "" then
          submitDescriptionBlock s lastResponse.llm_analysis api
        else genericHandling s nextAction rest api
      | none => genericHandling s nextAction rest api
    else genericHandling s nextAction rest api

/-- Embeds `sendCommand` (the user-facing enqueue): clear the error slot
and append the token to the queue tail. -/
def sendCommand (s : AnalyzerState) (command : String) : AnalyzerState :=
  { s with error := none, actionQueue := s.actionQueue ++ [command] }

/-- Embeds `startConversation`: clear error, reset DescriptionAttempts
and ExecutedActions, then call the start endpoint; on success replace the
log with the single response turn and, only when the response carries a
non-empty `suggested_actions`, replace the queue with it. -/
def startConversation (s : AnalyzerState)
    (api : Except String ConversationResponse) : AnalyzerState :=
  let s1 := { s with error := none, descriptionAttempts := 0,
                     executedActions := ∅ }
  match api with
  | .ok response =>
    if response.status = "success" then
      let s2 := { s1 with conversation := [response] }
      if response.suggested_actions.length > 0 then
        { s2 with actionQueue := response.suggested_actions }
      else s2
    else { s1 with error := some response.message }
  | .error msg =>
    { s1 with error := some ("Error starting conversation: " ++ msg) }

/-- Embeds the manual `sendDescription` handler (the Send Description
button): refuse with a wait message while the queue is non-empty,
otherwise submit the textarea text. -/
def sendDescriptionManual (s : AnalyzerState)
    (api : Except String ConversationResponse) :
    AnalyzerState × Option ApiCall :=
  let s1 := { s with error := none }
  if s1.actionQueue.length > 0 then
    let waitMsg := "Please wait for all image processing to complete before sending description"
    ({ s1 with error := some waitMsg }, none)
  else
    match api with
    | .ok response =>
      if response.status = "success" then
        ({ s1 with conversation := s1.conversation ++ [response],
                   description := "" },
         some (.descriptionCall s.description))
      else
        ({ s1 with error := some response.message },
         some (.descriptionCall s.description))
    | .error msg =>
      ({ s1 with error := some ("Error sending description: " ++ msg) },
       some (.descriptionCall s.description))

/-- Embeds `clearCache`: no-op while loading or processing, no-op unless
the user confirms; on a successful call reset log, queue, description,
ExecutedActions and DescriptionAttempts (the transient
`Cache cleared successfully` message and its 3 s reset are the final
error value of the handler run itself). -/
def clearCache (s : AnalyzerState) (confirmed : Bool)
    (api : Except String ConversationResponse) : AnalyzerState :=
  if s.loading ∨ s.processingActions then s
  else if ¬ confirmed then s
  else
    let s1 := { s with error := none }
    match api with
    | .ok response =>
      if response.status = "success" then
        { s1 with conversation := [], actionQueue := [], description := "",
                  executedActions := ∅, descriptionAttempts := 0,
                  error := some "Cache cleared successfully" }
      else { s1 with error := some response.message }
    | .error msg =>
      { s1 with error := some ("Error clearing cache: " ++ msg) }

/-- One user-or-timer step of the component: a tick of the scheduler or
one of the four user handlers, each with an arbitrary backend oracle. -/
inductive Step : AnalyzerState → AnalyzerState → Prop where
  | tick (s : AnalyzerState) (api : Except String ConversationResponse) :
      Step s (processNextAction s api).1
  | enqueue (s : AnalyzerState) (cmd : String) :
      Step s (sendCommand s cmd)
  | start (s : AnalyzerState) (api : Except String ConversationResponse) :
      Step s (startConversation s api)
  | descr (s : AnalyzerState) (api : Except String ConversationResponse) :
      Step s (sendDescriptionManual s api).1
  | clear (s : AnalyzerState) (confirmed : Bool)
      (api : Except String ConversationResponse) :
      Step s (clearCache s confirmed api)

/-- States reachable from the initial component state by any sequence of
steps (arbitrary backend responses). -/
inductive Reachable : AnalyzerState → Prop where
  | init : Reachable initialState
  | step {s s' : AnalyzerState} : Reachable s → Step s s' → Reachable s'

/-- A step that is not a user enqueue: tick, start, manual description,
or cache-clear. -/
inductive StepNoEnq : AnalyzerState → AnalyzerState → Prop where
  | tick (s : AnalyzerState) (api : Except String ConversationResponse) :
      StepNoEnq s (processNextAction s api).1
  | start (s : AnalyzerState) (api : Except String ConversationResponse) :
      StepNoEnq s (startConversation s api)
  | descr (s : AnalyzerState) (api : Except String ConversationResponse) :
      StepNoEnq s (sendDescriptionManual s api).1
  | clear (s : AnalyzerState) (confirmed : Bool)
      (api : Except String ConversationResponse) :
      StepNoEnq s (clearCache s confirmed api)

/-- States reachable without any user `sendCommand` enqueue. -/
inductive ReachableNoEnq : AnalyzerState → Prop where
  | init : ReachableNoEnq initialState
  | step {s s' : AnalyzerState} :
      ReachableNoEnq s → StepNoEnq s s' → ReachableNoEnq s'


/-! ### Branch characterization lemmas -/

/-- Helper response constructor used by concrete scenarios. -/
def resp (st an : String) (sug : List String) : ConversationResponse where
  status := st
  message := "msg"
  processed_images := []
  llm_analysis := an
  suggested_actions := sug

/-- The generic handling never changes `descriptionAttempts`,
`conversation` on non-success paths aside, and never touches
`loading` or `description`. -/
theorem genericHandling_attempts (s : AnalyzerState) (a : String)
    (rest : List String) (api : Except String ConversationResponse) :
    (genericHandling s a rest api).1.descriptionAttempts =
      s.descriptionAttempts := by
  unfold genericHandling
  split
  · rfl
  · cases api with
    | ok r =>
      by_cases hr : r.status = "success" <;> simp [hr]
    | error m => rfl

/-- The executed set after generic handling: unchanged, or the dispatched
non-`ANALYZE_ALL` token inserted. -/
theorem genericHandling_executed (s : AnalyzerState) (a : String)
    (rest : List String) (api : Except String ConversationResponse) :
    (genericHandling s a rest api).1.executedActions = s.executedActions ∨
    (a ≠ "ANALYZE_ALL" ∧
      (genericHandling s a rest api).1.executedActions =
        insert a s.executedActions) := by
  unfold genericHandling
  split
  · exact Or.inl rfl
  · cases api with
    | ok r =>
      by_cases hr : r.status = "success"
      · by_cases ha : a = "ANALYZE_ALL"
        · exact Or.inl (by simp [hr, ha])
        · exact Or.inr ⟨ha, by simp [hr, ha]⟩
      · exact Or.inl (by simp [hr])
    | error m => exact Or.inl rfl

/-- The submit-description block never changes `executedActions`. -/
theorem submitDescriptionBlock_executed (s : AnalyzerState) (t : String)
    (api : Except String ConversationResponse) :
    (submitDescriptionBlock s t api).1.executedActions =
      s.executedActions := by
  unfold submitDescriptionBlock
  cases api with
  | ok r => by_cases hr : r.status = "success" <;> simp [hr]
  | error m => rfl

/-- The submit-description block either leaves `descriptionAttempts`
unchanged with queue `[ANALYZE_ALL]` (failure paths) or increments it,
with the queue decided by the pre-increment value (success path). -/
theorem submitDescriptionBlock_attempts (s : AnalyzerState) (t : String)
    (api : Except String ConversationResponse) :
    ((submitDescriptionBlock s t api).1.descriptionAttempts =
        s.descriptionAttempts ∧
      (submitDescriptionBlock s t api).1.actionQueue = ["ANALYZE_ALL"]) ∨
    ((submitDescriptionBlock s t api).1.descriptionAttempts =
        s.descriptionAttempts + 1 ∧
      (submitDescriptionBlock s t api).1.actionQueue =
        (if s.descriptionAttempts < MAX_DESCRIPTION_ATTEMPTS - 1 then
          ["ANALYZE_ALL"] else [])) := by
  unfold submitDescriptionBlock
  cases api with
  | ok r =>
    by_cases hr : r.status = "success"
    · exact Or.inr (by simp [hr])
    · exact Or.inl (by simp [hr])
  | error m => exact Or.inl ⟨rfl, rfl⟩

/-- A tick either leaves the state unchanged (empty queue, or a run in
flight), runs the generic handling on the head, or runs the
submit-description block. -/
theorem processNextAction_cases (s : AnalyzerState)
    (api : Except String ConversationResponse) :
    (processNextAction s api).1 = s ∨
    (∃ a rest, s.actionQueue = a :: rest ∧
      ((processNextAction s api).1 = (genericHandling s a rest api).1 ∨
       ∃ t, (processNextAction s api).1 =
              (submitDescriptionBlock s t api).1)) := by
  unfold processNextAction
  cases hq : s.actionQueue with
  | nil => exact Or.inl rfl
  | cons a rest =>
    by_cases hp : s.processingActions
    · exact Or.inl (by simp [hp])
    · refine Or.inr ⟨a, rest, rfl, ?_⟩
      by_cases hsd : a = "SUBMIT_DESCRIPTION"
      · simp only [hp, hsd, if_true, if_false, Bool.false_eq_true]
        cases hl : s.conversation.getLast? with
        | none => exact Or.inl (by simp)
        | some lr =>
          by_cases ha : lr.llm_analysis = ""
          · exact Or.inl (by simp [ha])
          · exact Or.inr ⟨lr.llm_analysis, by simp [ha]⟩
      · exact Or.inl (by simp [hp, hsd])

/-- A tick whose head is `SUBMIT_DESCRIPTION`, with a last turn present
and carrying a non-empty analysis, runs the submit-description block. -/
theorem tick_submit (s : AnalyzerState) (rest : List String)
    (lr : ConversationResponse) (api : Except String ConversationResponse)
    (hq : s.actionQueue = "SUBMIT_DESCRIPTION" :: rest)
    (hp : s.processingActions = false)
    (hl : s.conversation.getLast? = some lr)
    (ha : lr.llm_analysis ≠ "") :
    processNextAction s api = submitDescriptionBlock s lr.llm_analysis api := by
  unfold processNextAction
  simp [hq, hp, hl, ha]

/-- A tick whose head is `SUBMIT_DESCRIPTION` but whose last turn is
absent or has an empty analysis falls through to the generic handling. -/
theorem tick_submit_fallthrough (s : AnalyzerState) (rest : List String)
    (api : Except String ConversationResponse)
    (hq : s.actionQueue = "SUBMIT_DESCRIPTION" :: rest)
    (hp : s.processingActions = false)
    (hnoan : s.conversation.getLast? = none ∨
      ∃ lr, s.conversation.getLast? = some lr ∧ lr.llm_analysis = "") :
    processNextAction s api = genericHandling s "SUBMIT_DESCRIPTION" rest api := by
  unfold processNextAction
  rcases hnoan with hl | ⟨lr, hl, ha⟩
  · simp [hq, hp, hl]
  · simp [hq, hp, hl, ha]

/-- A tick whose head is any other token runs the generic handling. -/
theorem tick_generic_entry (s : AnalyzerState) (a : String)
    (rest : List String) (api : Except String ConversationResponse)
    (hq : s.actionQueue = a :: rest)
    (hp : s.processingActions = false)
    (hsd : a ≠ "SUBMIT_DESCRIPTION") :
    processNextAction s api = genericHandling s a rest api := by
  unfold processNextAction
  simp [hq, hp, hsd]

/-- The generic handling on a head not yet executed always dispatches it
to the command endpoint. -/
theorem genericHandling_call (s : AnalyzerState) (a : String)
    (rest : List String) (api : Except String ConversationResponse)
    (hE : a ∉ s.executedActions) :
    (genericHandling s a rest api).2 = some (ApiCall.commandCall a) := by
  unfold genericHandling
  have hcond : ¬ (a ≠ "ANALYZE_ALL" ∧ a ∈ s.executedActions) := fun hc => hE hc.2
  cases api with
  | ok r => by_cases hr : r.status = "success" <;> simp [hcond, hr]
  | error m => simp [hcond]

/-- Starting a conversation always resets the executed set to empty. -/
theorem startConversation_executed (s : AnalyzerState)
    (api : Except String ConversationResponse) :
    (startConversation s api).executedActions = ∅ := by
  unfold startConversation
  cases api with
  | ok r =>
    by_cases hr : r.status = "success"
    · by_cases hs : r.suggested_actions.length > 0 <;> simp [hr, hs]
    · simp [hr]
  | error m => rfl

/-- Starting a conversation always resets the attempts counter to zero. -/
theorem startConversation_attempts (s : AnalyzerState)
    (api : Except String ConversationResponse) :
    (startConversation s api).descriptionAttempts = 0 := by
  unfold startConversation
  cases api with
  | ok r =>
    by_cases hr : r.status = "success"
    · by_cases hs : r.suggested_actions.length > 0 <;> simp [hr, hs]
    · simp [hr]
  | error m => rfl

/-- The manual description handler never changes the queue, the executed
set, or the attempts counter. -/
theorem sendDescriptionManual_frame (s : AnalyzerState)
    (api : Except String ConversationResponse) :
    (sendDescriptionManual s api).1.actionQueue = s.actionQueue ∧
    (sendDescriptionManual s api).1.executedActions = s.executedActions ∧
    (sendDescriptionManual s api).1.descriptionAttempts =
      s.descriptionAttempts := by
  unfold sendDescriptionManual
  by_cases hlen : s.actionQueue.length > 0
  · simp [hlen]
  · cases api with
    | ok r => by_cases hr : r.status = "success" <;> simp [hlen, hr]
    | error m => simp [hlen]

/-- Clearing the cache either resets attempts, queue and executed set, or
leaves all three unchanged. -/
theorem clearCache_frame (s : AnalyzerState) (c : Bool)
    (api : Except String ConversationResponse) :
    ((clearCache s c api).descriptionAttempts = 0 ∧
      (clearCache s c api).actionQueue = [] ∧
      (clearCache s c api).executedActions = ∅) ∨
    ((clearCache s c api).descriptionAttempts = s.descriptionAttempts ∧
      (clearCache s c api).actionQueue = s.actionQueue ∧
      (clearCache s c api).executedActions = s.executedActions) := by
  unfold clearCache
  by_cases hg : s.loading = true ∨ s.processingActions = true
  · exact Or.inr (by simp [hg])
  · by_cases hc : c = true
    · cases api with
      | ok r =>
        by_cases hr : r.status = "success"
        · exact Or.inl (by simp [hg, hc, hr])
        · exact Or.inr (by simp [hg, hc, hr])
      | error m => exact Or.inr (by simp [hg, hc])
    · exact Or.inr (by simp [hg, hc])

/-! ### Claim theorems -/

/-- State for the C4 scenario: queue `[SUBMIT_DESCRIPTION]`, last turn
with analysis text `desc text`. -/
def c4state : AnalyzerState :=
  { initialState with actionQueue := ["SUBMIT_DESCRIPTION"],
                      conversation := [resp "success" "desc text" []] }

/-- Claim C4: when a tick processes head SUBMIT_DESCRIPTION with the last
turn analysis present and the submission succeeds, the resulting turn is
appended to the log and DescriptionAttempts is incremented; from 0 the
queue becomes exactly `[ANALYZE_ALL]`, from 1 (reaching the maximum 2)
it becomes exactly `[]`. -/
theorem submit_success_attempts_c4 (s : AnalyzerState) (rest : List String)
    (lr r : ConversationResponse)
    (hq : s.actionQueue = "SUBMIT_DESCRIPTION" :: rest)
    (hp : s.processingActions = false)
    (hl : s.conversation.getLast? = some lr)
    (ha : lr.llm_analysis ≠ "")
    (hr : r.status = "success") :
    (processNextAction s (Except.ok r)).1.conversation =
      s.conversation ++ [r] ∧
    (processNextAction s (Except.ok r)).1.descriptionAttempts =
      s.descriptionAttempts + 1 ∧
    (s.descriptionAttempts = 0 →
      (processNextAction s (Except.ok r)).1.actionQueue = ["ANALYZE_ALL"]) ∧
    (s.descriptionAttempts = 1 →
      (processNextAction s (Except.ok r)).1.actionQueue = []) := by
  rw [tick_submit s rest lr (Except.ok r) hq hp hl ha]
  unfold submitDescriptionBlock MAX_DESCRIPTION_ATTEMPTS
  refine ⟨by simp [hr], by simp [hr], ?_, ?_⟩
  · intro h0; simp [hr, h0]
  · intro h1; simp [hr, h1]

/-- Witness for C4 at the concrete scenario state. -/
theorem submit_success_attempts_c4_witness :
    (processNextAction c4state
        (Except.ok (resp "success" "" []))).1.descriptionAttempts = 1 ∧
    (processNextAction c4state
        (Except.ok (resp "success" "" []))).1.actionQueue =
      ["ANALYZE_ALL"] := by
  obtain ⟨-, h2, h3, -⟩ :=
    submit_success_attempts_c4 c4state [] (resp "success" "desc text" [])
      (resp "success" "" []) rfl rfl rfl (by decide) rfl
  exact ⟨h2, h3 rfl⟩

/-- Claim C10: with a non-empty action queue, the manual send-description
handler only sets the wait message in the error slot — no backend call,
log, queue, executed set and attempts all unchanged. -/
theorem manual_description_gated_c10 (s : AnalyzerState)
    (api : Except String ConversationResponse)
    (hq : s.actionQueue ≠ []) :
    (sendDescriptionManual s api).2 = none ∧
    (sendDescriptionManual s api).1.error =
      some "Please wait for all image processing to complete before sending description" ∧
    (sendDescriptionManual s api).1.conversation = s.conversation ∧
    (sendDescriptionManual s api).1.actionQueue = s.actionQueue ∧
    (sendDescriptionManual s api).1.executedActions = s.executedActions ∧
    (sendDescriptionManual s api).1.descriptionAttempts =
      s.descriptionAttempts := by
  have hlen : s.actionQueue.length > 0 := List.length_pos.mpr hq
  unfold sendDescriptionManual
  simp [hlen]

/-- Witness for C10 at a concrete one-element queue. -/
theorem manual_description_gated_c10_witness :
    (sendDescriptionManual { initialState with actionQueue := ["X"] }
        (Except.ok (resp "success" "" []))).2 = none ∧
    (sendDescriptionManual { initialState with actionQueue := ["X"] }
        (Except.ok (resp "success" "" []))).1.actionQueue = ["X"] := by
  obtain ⟨h1, -, -, h4, -, -⟩ :=
    manual_description_gated_c10 { initialState with actionQueue := ["X"] }
      (Except.ok (resp "success" "" [])) (by decide)
  exact ⟨h1, h4⟩

/-- Claim C5: failure handling is asymmetric.  A failed SUBMIT_DESCRIPTION
submission (error status or thrown fault) surfaces the error and replaces
the queue with exactly `[ANALYZE_ALL]`; a failed generic dispatch surfaces
the error and only removes the head, inserting no `ANALYZE_ALL`. -/
theorem tick_failure_asymmetry_c5 (s t : AnalyzerState)
    (rest restT : List String) (head : String)
    (lr r : ConversationResponse) (m : String) :
    (s.actionQueue = "SUBMIT_DESCRIPTION" :: rest →
      s.processingActions = false →
      s.conversation.getLast? = some lr → lr.llm_analysis ≠ "" →
      r.status ≠ "success" →
      (processNextAction s (Except.ok r)).1.error = some r.message ∧
      (processNextAction s (Except.ok r)).1.actionQueue = ["ANALYZE_ALL"]) ∧
    (s.actionQueue = "SUBMIT_DESCRIPTION" :: rest →
      s.processingActions = false →
      s.conversation.getLast? = some lr → lr.llm_analysis ≠ "" →
      (processNextAction s (Except.error m)).1.error =
        some ("Error sending description: " ++ m) ∧
      (processNextAction s (Except.error m)).1.actionQueue =
        ["ANALYZE_ALL"]) ∧
    (t.actionQueue = head :: restT → t.processingActions = false →
      head ≠ "SUBMIT_DESCRIPTION" → head ∉ t.executedActions →
      r.status ≠ "success" →
      (processNextAction t (Except.ok r)).1.error = some r.message ∧
      (processNextAction t (Except.ok r)).1.actionQueue = restT) ∧
    (t.actionQueue = head :: restT → t.processingActions = false →
      head ≠ "SUBMIT_DESCRIPTION" → head ∉ t.executedActions →
      (processNextAction t (Except.error m)).1.error =
        some ("Error executing command: " ++ m) ∧
      (processNextAction t (Except.error m)).1.actionQueue = restT) := by
  refine ⟨?_, ?_, ?_, ?_⟩
  · intro hq hp hl ha hr
    rw [tick_submit s rest lr (Except.ok r) hq hp hl ha]
    unfold submitDescriptionBlock
    simp [hr]
  · intro hq hp hl ha
    rw [tick_submit s rest lr (Except.error m) hq hp hl ha]
    unfold submitDescriptionBlock
    simp
  · intro hq hp hsd hE hr
    rw [tick_generic_entry t head restT (Except.ok r) hq hp hsd]
    unfold genericHandling
    have hcond : ¬ (head ≠ "ANALYZE_ALL" ∧ head ∈ t.executedActions) :=
      fun hc => hE hc.2
    simp [hcond, hr]
  · intro hq hp hsd hE
    rw [tick_generic_entry t head restT (Except.error m) hq hp hsd]
    unfold genericHandling
    have hcond : ¬ (head ≠ "ANALYZE_ALL" ∧ head ∈ t.executedActions) :=
      fun hc => hE hc.2
    simp [hcond]

/-- Witness for C5: both failure paths at concrete states — submit
failure yields queue `[ANALYZE_ALL]`, generic failure drops just the
head. -/
theorem tick_failure_asymmetry_c5_witness :
    (processNextAction c4state (Except.ok (resp "oops" "" []))).1.actionQueue =
      ["ANALYZE_ALL"] ∧
    (processNextAction { initialState with actionQueue := ["X", "Y"] }
        (Except.ok (resp "oops" "" []))).1.actionQueue = ["Y"] ∧
    (processNextAction { initialState with actionQueue := ["X", "Y"] }
        (Except.ok (resp "oops" "" []))).1.error = some "msg" := by
  obtain ⟨h1, -, h3, -⟩ :=
    tick_failure_asymmetry_c5 c4state
      { initialState with actionQueue := ["X", "Y"] } [] ["Y"] "X"
      (resp "success" "desc text" []) (resp "oops" "" []) "m"
  refine ⟨(h1 rfl rfl rfl (by decide) (by decide)).2, ?_, ?_⟩
  · exact (h3 rfl rfl (by decide) (by decide) (by decide)).2
  · exact (h3 rfl rfl (by decide) (by decide) (by decide)).1

/-- A single step never puts `ANALYZE_ALL` into the executed set. -/
theorem step_preserves_no_AA {s s' : AnalyzerState} (hst : Step s s')
    (h : "ANALYZE_ALL" ∉ s.executedActions) :
    "ANALYZE_ALL" ∉ s'.executedActions := by
  cases hst with
  | tick api =>
    rcases processNextAction_cases s api with he | ⟨a, rest, hq, hgen | ⟨u, hsub⟩⟩
    · rw [he]; exact h
    · rw [hgen]
      rcases genericHandling_executed s a rest api with heq | ⟨hne, heq⟩
      · rw [heq]; exact h
      · rw [heq]
        intro hmem
        rcases Finset.mem_insert.mp hmem with heqa | hmem'
        · exact hne heqa.symm
        · exact h hmem'
    · rw [hsub, submitDescriptionBlock_executed]; exact h
  | enqueue cmd => exact h
  | start api => rw [startConversation_executed]; simp
  | descr api => rw [(sendDescriptionManual_frame s api).2.1]; exact h
  | clear c api =>
    rcases clearCache_frame s c api with ⟨-, -, he⟩ | ⟨-, -, he⟩
    · rw [he]; simp
    · rw [he]; exact h

/-- Claim C8: in every reachable state of the controller, `ANALYZE_ALL`
is never a member of ExecutedActions, no matter how often it is
dispatched successfully. -/
theorem analyze_all_never_executed_c8 (s : AnalyzerState)
    (h : Reachable s) : "ANALYZE_ALL" ∉ s.executedActions := by
  induction h with
  | init => simp [initialState]
  | step _ hst ih => exact step_preserves_no_AA hst ih

/-- Witness for C8, at a state reached by dispatching `ANALYZE_ALL`
successfully once. -/
theorem analyze_all_never_executed_c8_witness :
    "ANALYZE_ALL" ∉ ((processNextAction
      (sendCommand initialState "ANALYZE_ALL")
      (Except.ok (resp "success" "" []))).1).executedActions :=
  analyze_all_never_executed_c8 _
    (Reachable.step
      (Reachable.step Reachable.init (Step.enqueue initialState "ANALYZE_ALL"))
      (Step.tick (sendCommand initialState "ANALYZE_ALL")
        (Except.ok (resp "success" "" []))))

/-- Trace states for the C7 counterexample: a user enqueue of
`SUBMIT_DESCRIPTION` after the two automated attempts drives the counter
to 3. -/
def c7state2 : AnalyzerState :=
  (processNextAction (sendCommand initialState "X")
    (Except.ok (resp "success" "a" ["SUBMIT_DESCRIPTION"]))).1

/-- Second trace state: first successful description submission. -/
def c7state3 : AnalyzerState :=
  (processNextAction c7state2 (Except.ok (resp "success" "b" []))).1

/-- Third trace state: `ANALYZE_ALL` re-suggests `SUBMIT_DESCRIPTION`. -/
def c7state4 : AnalyzerState :=
  (processNextAction c7state3
    (Except.ok (resp "success" "c" ["SUBMIT_DESCRIPTION"]))).1

/-- Fourth trace state: second successful submission, attempts = 2. -/
def c7state5 : AnalyzerState :=
  (processNextAction c7state4 (Except.ok (resp "success" "d" []))).1

/-- Final trace state: after a user enqueue of `SUBMIT_DESCRIPTION` and a
third successful submission. -/
def c7state7 : AnalyzerState :=
  (processNextAction (sendCommand c7state5 "SUBMIT_DESCRIPTION")
    (Except.ok (resp "success" "e" []))).1

/-- Counterexample for C7: a reachable state (via a user enqueue of
`SUBMIT_DESCRIPTION`) whose DescriptionAttempts is 3, exceeding
MAX_DESCRIPTION_ATTEMPTS = 2. -/
theorem attempts_bound_c7_cex :
    Reachable c7state7 ∧ c7state7.descriptionAttempts = 3 ∧
    ¬ (c7state7.descriptionAttempts ≤ MAX_DESCRIPTION_ATTEMPTS) := by
  refine ⟨?_, by decide, by decide⟩
  exact Reachable.step
    (Reachable.step
      (Reachable.step
        (Reachable.step
          (Reachable.step
            (Reachable.step
              (Reachable.step Reachable.init (Step.enqueue initialState "X"))
              (Step.tick (sendCommand initialState "X")
                (Except.ok (resp "success" "a" ["SUBMIT_DESCRIPTION"]))))
            (Step.tick c7state2 (Except.ok (resp "success" "b" []))))
          (Step.tick c7state3
            (Except.ok (resp "success" "c" ["SUBMIT_DESCRIPTION"]))))
        (Step.tick c7state4 (Except.ok (resp "success" "d" []))))
      (Step.enqueue c7state5 "SUBMIT_DESCRIPTION"))
    (Step.tick (sendCommand c7state5 "SUBMIT_DESCRIPTION")
      (Except.ok (resp "success" "e" [])))

/-- Any non-enqueue step preserves the attempts bound together with the
queue-emptiness-at-maximum property. -/
theorem stepNoEnq_preserves_bound {s s' : AnalyzerState}
    (hst : StepNoEnq s s')
    (h : s.descriptionAttempts ≤ MAX_DESCRIPTION_ATTEMPTS ∧
      (s.descriptionAttempts = MAX_DESCRIPTION_ATTEMPTS →
        s.actionQueue = [])) :
    s'.descriptionAttempts ≤ MAX_DESCRIPTION_ATTEMPTS ∧
    (s'.descriptionAttempts = MAX_DESCRIPTION_ATTEMPTS →
      s'.actionQueue = []) := by
  obtain ⟨hle, hq2⟩ := h
  cases hst with
  | tick api =>
    rcases processNextAction_cases s api with he | ⟨a, rest, hq, hgen | ⟨u, hsub⟩⟩
    · rw [he]; exact ⟨hle, hq2⟩
    · have hne : s.descriptionAttempts ≠ MAX_DESCRIPTION_ATTEMPTS := by
        intro hc; rw [hq2 hc] at hq; exact List.noConfusion hq
      have hle1 : s.descriptionAttempts ≤ 1 := by
        unfold MAX_DESCRIPTION_ATTEMPTS at hle hne; omega
      rw [hgen]
      refine ⟨?_, ?_⟩
      · rw [genericHandling_attempts]; exact hle
      · rw [genericHandling_attempts]
        intro hc
        exact absurd hc (by unfold MAX_DESCRIPTION_ATTEMPTS at *; omega)
    · have hne : s.descriptionAttempts ≠ MAX_DESCRIPTION_ATTEMPTS := by
        intro hc; rw [hq2 hc] at hq; exact List.noConfusion hq
      have hle1 : s.descriptionAttempts ≤ 1 := by
        unfold MAX_DESCRIPTION_ATTEMPTS at hle hne; omega
      rw [hsub]
      rcases submitDescriptionBlock_attempts s u api with ⟨ha, -⟩ | ⟨ha, hqe⟩
      · refine ⟨?_, ?_⟩
        · rw [ha]; exact hle
        · rw [ha]; intro hc; exact absurd hc hne
      · refine ⟨?_, ?_⟩
        · rw [ha]; unfold MAX_DESCRIPTION_ATTEMPTS at *; omega
        · rw [ha, hqe]
          intro hc
          have h1 : s.descriptionAttempts = 1 := by
            unfold MAX_DESCRIPTION_ATTEMPTS at hc; omega
          rw [if_neg (by rw [h1]; unfold MAX_DESCRIPTION_ATTEMPTS; omega)]
  | start api =>
    refine ⟨?_, ?_⟩
    · rw [startConversation_attempts]
      unfold MAX_DESCRIPTION_ATTEMPTS; omega
    · rw [startConversation_attempts]
      intro hc
      exact absurd hc (by unfold MAX_DESCRIPTION_ATTEMPTS; omega)
  | descr api =>
    obtain ⟨hqf, -, haf⟩ := sendDescriptionManual_frame s api
    refine ⟨by rw [haf]; exact hle, ?_⟩
    intro hc
    rw [haf] at hc
    rw [hqf]
    exact hq2 hc
  | clear c api =>
    rcases clearCache_frame s c api with ⟨ha, hqe, -⟩ | ⟨ha, hqe, -⟩
    · refine ⟨?_, fun _ => hqe⟩
      rw [ha]; unfold MAX_DESCRIPTION_ATTEMPTS; omega
    · refine ⟨by rw [ha]; exact hle, ?_⟩
      intro hc
      rw [ha] at hc
      rw [hqe]
      exact hq2 hc

/-- Claim C7 (amended): in every state reachable without user-enqueued
commands, DescriptionAttempts is at most MAX_ATTEMPTS (2), and when it
equals the maximum the queue is empty — in particular the successful
submission that reaches the maximum leaves the queue empty. -/
theorem attempts_bound_noenq_c7 (s : AnalyzerState)
    (h : ReachableNoEnq s) :
    s.descriptionAttempts ≤ MAX_DESCRIPTION_ATTEMPTS ∧
    (s.descriptionAttempts = MAX_DESCRIPTION_ATTEMPTS →
      s.actionQueue = []) := by
  induction h with
  | init => exact ⟨by decide, fun hc => absurd hc (by decide)⟩
  | step _ hst ih => exact stepNoEnq_preserves_bound hst ih

/-- Enqueue-free trace states for the C7 witness: start, submit, analyze,
submit again, reaching attempts = 2 with an empty queue. -/
def c7w1 : AnalyzerState :=
  startConversation initialState
    (Except.ok (resp "success" "a" ["SUBMIT_DESCRIPTION"]))

/-- Second witness trace state. -/
def c7w2 : AnalyzerState :=
  (processNextAction c7w1 (Except.ok (resp "success" "b" []))).1

/-- Third witness trace state. -/
def c7w3 : AnalyzerState :=
  (processNextAction c7w2
    (Except.ok (resp "success" "c" ["SUBMIT_DESCRIPTION"]))).1

/-- Fourth witness trace state: attempts = 2, queue empty. -/
def c7w4 : AnalyzerState :=
  (processNextAction c7w3 (Except.ok (resp "success" "d" []))).1

/-- Witness for C7 (amended) at the end of an enqueue-free trace with two
successful submissions. -/
theorem attempts_bound_noenq_c7_witness :
    c7w4.descriptionAttempts ≤ MAX_DESCRIPTION_ATTEMPTS ∧
    (c7w4.descriptionAttempts = MAX_DESCRIPTION_ATTEMPTS →
      c7w4.actionQueue = []) :=
  attempts_bound_noenq_c7 c7w4
    (ReachableNoEnq.step
      (ReachableNoEnq.step
        (ReachableNoEnq.step
          (ReachableNoEnq.step ReachableNoEnq.init
            (StepNoEnq.start initialState
              (Except.ok (resp "success" "a" ["SUBMIT_DESCRIPTION"]))))
          (StepNoEnq.tick c7w1 (Except.ok (resp "success" "b" []))))
        (StepNoEnq.tick c7w2
          (Except.ok (resp "success" "c" ["SUBMIT_DESCRIPTION"]))))
      (StepNoEnq.tick c7w3 (Except.ok (resp "success" "d" []))))

/-- Start state of the C1 scenario: queue `[A, B]`, executed `{A}`. -/
def c1state0 : AnalyzerState :=
  { initialState with actionQueue := ["A", "B"],
                      executedActions := {"A"} }

/-- State after the first C1 tick (the skip of `A`). -/
def c1state1 : AnalyzerState :=
  (processNextAction c1state0 (Except.error "unused")).1

/-- The C1 backend response for `B`: success, suggesting `[A, B]`. -/
def c1resp : ConversationResponse := resp "success" "" ["A", "B"]

/-- Counterexample for C1: in the scenario queue `[A, B]`, executed
`{A}`, with `B` succeeding and suggesting `[A, B]`, the filter uses the
start-of-tick executed set (which does not yet contain `B`), so the
filtered list is `[B]`, not empty, and the queue after the second tick is
`["B"]`, not `["ANALYZE_ALL"]` as the claim states. -/
theorem suggestion_filter_c1_cex :
    c1state1.actionQueue = ["B"] ∧
    (processNextAction c1state1 (Except.ok c1resp)).2 =
      some (ApiCall.commandCall "B") ∧
    (processNextAction c1state1 (Except.ok c1resp)).1.actionQueue = ["B"] ∧
    ¬ ((processNextAction c1state1 (Except.ok c1resp)).1.actionQueue =
        ["ANALYZE_ALL"]) := by
  decide

/-- Claim C1 (amended): in the scenario the first tick skips `A` leaving
queue `[B]`; the second tick dispatches `B`, and the suggested actions
`[A, B]` are filtered against the executed set as of the start of that
tick — `{A}`, not yet containing `B` — yielding `[B]`, so the queue
becomes `["B"]` (and `B` is only then recorded as executed). -/
theorem suggestion_filter_stale_c1 :
    (processNextAction c1state0 (Except.error "unused")).2 = none ∧
    c1state1.actionQueue = ["B"] ∧
    c1state1.executedActions = {"A"} ∧
    List.filter
      (fun a => decide (a = "ANALYZE_ALL" ∨ a ∉ c1state1.executedActions))
      ["A", "B"] = ["B"] ∧
    (processNextAction c1state1 (Except.ok c1resp)).1.actionQueue = ["B"] ∧
    (processNextAction c1state1 (Except.ok c1resp)).1.executedActions =
      insert "B" ({"A"} : Finset String) := by
  decide

/-- State for the C2 counterexample: head `SUBMIT_DESCRIPTION`, empty
conversation log. -/
def c2state : AnalyzerState :=
  { initialState with actionQueue := ["SUBMIT_DESCRIPTION"] }

/-- Counterexample for C2: with head SUBMIT_DESCRIPTION and no last turn,
the tick does NOT silently no-op — it falls through to the generic
handling, dispatches `SUBMIT_DESCRIPTION` to the command endpoint, and
mutates the queue. -/
theorem submit_without_analysis_c2_cex :
    c2state.conversation = [] ∧
    (processNextAction c2state (Except.ok (resp "success" "" []))).2 =
      some (ApiCall.commandCall "SUBMIT_DESCRIPTION") ∧
    (processNextAction c2state (Except.ok (resp "success" "" []))).1.actionQueue =
      ["ANALYZE_ALL"] ∧
    ¬ ((processNextAction c2state (Except.ok (resp "success" "" []))).1.actionQueue =
        c2state.actionQueue) := by
  decide

/-- Claim C2 (amended): when the head is SUBMIT_DESCRIPTION but the last
turn is absent or its analysis empty, the tick falls through to the
generic command handling — `SUBMIT_DESCRIPTION` is treated as an ordinary
token (dispatched to the command endpoint unless already executed). -/
theorem submit_without_analysis_fallthrough_c2 (s : AnalyzerState)
    (rest : List String) (api : Except String ConversationResponse)
    (hq : s.actionQueue = "SUBMIT_DESCRIPTION" :: rest)
    (hp : s.processingActions = false)
    (hnoan : s.conversation.getLast? = none ∨
      ∃ lr, s.conversation.getLast? = some lr ∧ lr.llm_analysis = "") :
    processNextAction s api =
      genericHandling s "SUBMIT_DESCRIPTION" rest api ∧
    ("SUBMIT_DESCRIPTION" ∉ s.executedActions →
      (processNextAction s api).2 =
        some (ApiCall.commandCall "SUBMIT_DESCRIPTION")) := by
  have hred := tick_submit_fallthrough s rest api hq hp hnoan
  refine ⟨hred, fun hE => ?_⟩
  rw [hred]
  exact genericHandling_call s "SUBMIT_DESCRIPTION" rest api hE

/-- Witness for C2 (amended) at the concrete counterexample state. -/
theorem submit_without_analysis_fallthrough_c2_witness :
    processNextAction c2state (Except.error "boom") =
      genericHandling c2state "SUBMIT_DESCRIPTION" [] (Except.error "boom") ∧
    (processNextAction c2state (Except.error "boom")).2 =
      some (ApiCall.commandCall "SUBMIT_DESCRIPTION") := by
  obtain ⟨h1, h2⟩ :=
    submit_without_analysis_fallthrough_c2 c2state [] (Except.error "boom")
      rfl rfl (Or.inl rfl)
  exact ⟨h1, h2 (by decide)⟩

/-- State for the C3 counterexample: head `SUBMIT_DESCRIPTION` is in the
executed set, yet a last turn with analysis is present. -/
def c3state : AnalyzerState :=
  { initialState with actionQueue := ["SUBMIT_DESCRIPTION", "X"],
                      executedActions := {"SUBMIT_DESCRIPTION"},
                      conversation := [resp "success" "some analysis" []] }

/-- Counterexample for C3: the head is in ExecutedActions and is not
ANALYZE_ALL, yet the tick dispatches (the SUBMIT_DESCRIPTION branch takes
priority over the skip rule) and the queue becomes `["ANALYZE_ALL"]`
rather than the claimed `Q` minus its head (`["X"]`). -/
theorem skip_rule_c3_cex :
    c3state.actionQueue = ["SUBMIT_DESCRIPTION", "X"] ∧
    "SUBMIT_DESCRIPTION" ∈ c3state.executedActions ∧
    ¬ (("SUBMIT_DESCRIPTION" : String) = "ANALYZE_ALL") ∧
    (processNextAction c3state (Except.ok (resp "success" "" []))).2 =
      some (ApiCall.descriptionCall "some analysis") ∧
    (processNextAction c3state (Except.ok (resp "success" "" []))).1.actionQueue =
      ["ANALYZE_ALL"] ∧
    ¬ ((processNextAction c3state (Except.ok (resp "success" "" []))).1.actionQueue =
        ["X"]) := by
  decide

/-- Claim C3 (amended): provided the head does not trigger the
SUBMIT_DESCRIPTION branch (it is a different token, or the last analysis
is absent/empty), a head that is in ExecutedActions and is not
ANALYZE_ALL is removed without dispatching, and the queue becomes exactly
`[ANALYZE_ALL]` when every remaining entry is also non-ANALYZE_ALL and
executed (vacuously for an empty remainder), otherwise `Q` minus its
head; all other state is unchanged. -/
theorem skip_executed_head_c3 (s : AnalyzerState) (a : String)
    (rest : List String) (api : Except String ConversationResponse)
    (hq : s.actionQueue = a :: rest)
    (hp : s.processingActions = false)
    (hAA : a ≠ "ANALYZE_ALL")
    (hE : a ∈ s.executedActions)
    (hns : ¬ (a = "SUBMIT_DESCRIPTION" ∧
      ∃ lr, s.conversation.getLast? = some lr ∧ lr.llm_analysis ≠ "")) :
    (processNextAction s api).2 = none ∧
    (processNextAction s api).1.actionQueue =
      (if ∀ b ∈ rest, b ≠ "ANALYZE_ALL" ∧ b ∈ s.executedActions then
        ["ANALYZE_ALL"] else rest) ∧
    (processNextAction s api).1.conversation = s.conversation ∧
    (processNextAction s api).1.executedActions = s.executedActions ∧
    (processNextAction s api).1.error = s.error ∧
    (processNextAction s api).1.descriptionAttempts =
      s.descriptionAttempts := by
  have hred : processNextAction s api = genericHandling s a rest api := by
    by_cases hsd : a = "SUBMIT_DESCRIPTION"
    · subst hsd
      apply tick_submit_fallthrough s rest api hq hp
      cases hl : s.conversation.getLast? with
      | none => exact Or.inl rfl
      | some lr =>
        refine Or.inr ⟨lr, rfl, ?_⟩
        by_contra hne
        exact hns ⟨rfl, lr, hl, hne⟩
    · exact tick_generic_entry s a rest api hq hp hsd
  rw [hred]
  unfold genericHandling
  rw [if_pos ⟨hAA, hE⟩]
  repeat first
  | exact ⟨rfl, rfl, rfl, rfl, rfl, rfl⟩
  | rfl

/-- Witness for C3 (amended) at a concrete state whose remainder is not
fully executed. -/
theorem skip_executed_head_c3_witness :
    (processNextAction
        { initialState with actionQueue := ["Y", "Z"],
                            executedActions := {"Y"} }
        (Except.error "unused")).2 = none ∧
    (processNextAction
        { initialState with actionQueue := ["Y", "Z"],
                            executedActions := {"Y"} }
        (Except.error "unused")).1.actionQueue = ["Z"] := by
  obtain ⟨h1, h2, -⟩ :=
    skip_executed_head_c3
      { initialState with actionQueue := ["Y", "Z"],
                          executedActions := {"Y"} }
      "Y" ["Z"] (Except.error "unused") rfl rfl (by decide) (by decide)
      (by intro hc; exact absurd hc.1 (by decide))
  refine ⟨h1, ?_⟩
  rw [h2]
  rw [if_neg ?_]
  intro hall
  exact absurd ((hall "Z" (by decide)).2) (by decide)

/-- Trace states for the C6 counterexample: execute `X`, then enqueue `X`
again. -/
def c6state1 : AnalyzerState := sendCommand initialState "X"

/-- Second C6 trace state: `X` dispatched successfully. -/
def c6state2 : AnalyzerState :=
  (processNextAction c6state1 (Except.ok (resp "success" "" []))).1

/-- Final C6 trace state: `X` enqueued again while already executed. -/
def c6state3 : AnalyzerState := sendCommand c6state2 "X"

/-- Counterexample for C6: a reachable state whose queue contains the
already-executed, non-ANALYZE_ALL token `X` (re-enqueued by the user
after its successful dispatch). -/
theorem queue_dedup_invariant_c6_cex :
    Reachable c6state3 ∧
    "X" ∈ c6state3.executedActions ∧
    "X" ∈ c6state3.actionQueue ∧
    ¬ (("X" : String) = "ANALYZE_ALL") := by
  refine ⟨?_, by decide, by decide, by decide⟩
  exact Reachable.step
    (Reachable.step
      (Reachable.step Reachable.init (Step.enqueue initialState "X"))
      (Step.tick c6state1 (Except.ok (resp "success" "" []))))
    (Step.enqueue c6state2 "X")

/-- Claim C6 (amended): the queue MAY contain already-executed tokens
(user enqueues and re-suggestions are not validated against
ExecutedActions), but such a token is never dispatched: a tick whose head
is a non-ANALYZE_ALL, non-SUBMIT_DESCRIPTION token already in
ExecutedActions makes no backend call. -/
theorem executed_head_not_dispatched_c6 (s : AnalyzerState) (a : String)
    (rest : List String) (api : Except String ConversationResponse)
    (hq : s.actionQueue = a :: rest)
    (hAA : a ≠ "ANALYZE_ALL")
    (hSD : a ≠ "SUBMIT_DESCRIPTION")
    (hE : a ∈ s.executedActions) :
    (processNextAction s api).2 = none := by
  by_cases hp : s.processingActions
  · unfold processNextAction
    rw [hq]
    simp [hp]
  · rw [tick_generic_entry s a rest api hq (by simpa using hp) hSD]
    unfold genericHandling
    rw [if_pos ⟨hAA, hE⟩]

/-- Witness for C6 (amended): the re-enqueued executed token of the
counterexample trace is skipped, not dispatched, on the next tick. -/
theorem executed_head_not_dispatched_c6_witness :
    (processNextAction
        { initialState with actionQueue := ["X"],
                            executedActions := {"X"} }
        (Except.ok (resp "success" "" []))).2 = none :=
  executed_head_not_dispatched_c6
    { initialState with actionQueue := ["X"], executedActions := {"X"} }
    "X" [] (Except.ok (resp "success" "" [])) rfl (by decide) (by decide)
    (by decide)

/-- State for the C9 counterexample: a stale non-empty queue when a new
conversation starts. -/
def c9state : AnalyzerState := { initialState with actionQueue := ["X"] }

/-- The C9 start response: success with an empty suggestion list. -/
def c9resp : ConversationResponse := resp "success" "" []

/-- Counterexample for C9: a successful start whose response carries no
suggested actions does NOT replace the queue — the stale `["X"]`
survives instead of becoming the backend's (empty) initial suggestion
list. -/
theorem start_replaces_queue_c9_cex :
    c9resp.status = "success" ∧
    c9resp.suggested_actions = [] ∧
    (startConversation c9state (Except.ok c9resp)).actionQueue = ["X"] ∧
    ¬ ((startConversation c9state (Except.ok c9resp)).actionQueue =
        c9resp.suggested_actions) := by
  decide

/-- Claim C9 (amended): starting a conversation always resets
ExecutedActions to empty and DescriptionAttempts to 0; on success it
replaces the log with the single response turn and replaces the queue
with the response's suggested actions only when that list is non-empty
(an empty list leaves the queue unchanged).  A confirmed, successful
cache-clear resets log, queue, ExecutedActions and DescriptionAttempts to
empty/zero. -/
theorem start_and_clear_reset_c9 (s u : AnalyzerState)
    (r rc : ConversationResponse)
    (api : Except String ConversationResponse) :
    (startConversation s api).executedActions = ∅ ∧
    (startConversation s api).descriptionAttempts = 0 ∧
    (r.status = "success" →
      (startConversation s (Except.ok r)).conversation = [r] ∧
      (r.suggested_actions ≠ [] →
        (startConversation s (Except.ok r)).actionQueue =
          r.suggested_actions) ∧
      (r.suggested_actions = [] →
        (startConversation s (Except.ok r)).actionQueue = s.actionQueue)) ∧
    (u.loading = false → u.processingActions = false →
      rc.status = "success" →
      (clearCache u true (Except.ok rc)).conversation = [] ∧
      (clearCache u true (Except.ok rc)).actionQueue = [] ∧
      (clearCache u true (Except.ok rc)).executedActions = ∅ ∧
      (clearCache u true (Except.ok rc)).descriptionAttempts = 0) := by
  refine ⟨startConversation_executed s api,
    startConversation_attempts s api, ?_, ?_⟩
  · intro hr
    unfold startConversation
    refine ⟨?_, ?_, ?_⟩
    · by_cases hs : r.suggested_actions.length > 0 <;> simp [hr, hs]
    · intro hne
      have hs : r.suggested_actions.length > 0 :=
        List.length_pos.mpr hne
      simp [hr, hs]
    · intro heq
      simp [hr, heq]
  · intro hl hp hrc
    unfold clearCache
    have hg : ¬ (u.loading = true ∨ u.processingActions = true) := by
      rw [hl, hp]; simp
    simp [hg, hrc]

/-- Witness for C9 (amended) at concrete start and clear calls. -/
theorem start_and_clear_reset_c9_witness :
    (startConversation c9state (Except.ok c9resp)).executedActions = ∅ ∧
    (startConversation c9state (Except.ok c9resp)).actionQueue =
      c9state.actionQueue ∧
    (clearCache c9state true (Except.ok c9resp)).actionQueue = [] ∧
    (clearCache c9state true (Except.ok c9resp)).descriptionAttempts = 0 := by
  obtain ⟨h1, -, h3, h4⟩ :=
    start_and_clear_reset_c9 c9state c9state c9resp c9resp
      (Except.ok c9resp)
  obtain ⟨-, -, hq⟩ := h3 rfl
  obtain ⟨-, hcq, -, hca⟩ := h4 rfl rfl rfl
  exact ⟨h1, hq rfl, hcq, hca⟩

end PhotoAnalyzer
